import Mathlib

/-!
Verification development for the Medicine repository (src/app.py).

The definitions below are a shallow embedding of the Python source:

* HTML documents (BeautifulSoup trees) become the inductive type `Node`;
  the soup traversal primitives used by the source (find, find_all,
  find_next_siblings, find_all_next, next_siblings, get_text) become
  structurally recursive functions over `Node`.
* The field extractors of src/app.py (extract_section, extract_warnings,
  extract_side_effects_from_soup, extract_bottom_left_cell,
  extract_effects_by_strong_order and the inline extraction code of
  get_medicine) are translated function by function.
* Network requests are oracles passed as arguments: the index fetch of
  get_medicine becomes `FetchOracle`, the PDF download of download_pdf
  becomes a `download` argument.
* The sqlite table becomes a list of `StoredRow`; the /add and /delete
  route bodies become `add` and `delete`.

String case folding is modelled with ASCII folding (`Char.toLower`),
which agrees with Python str.lower, sqlite lower() and COLLATE NOCASE on
the ASCII range exercised here.
-/

set_option maxRecDepth 4000

namespace Medicine

/-! ## String primitives -/

/-- Whitespace characters recognised by Python str.strip and by the
regex whitespace class in the ASCII range. -/
def isWS (c : Char) : Bool :=
  c = ' ' || c = '\n' || c = '\t' || c = '\r' || c = '\x0b' || c = '\x0c'

/-- Strip whitespace from both ends of a character list (Python str.strip). -/
def trimL (l : List Char) : List Char :=
  ((l.dropWhile isWS).reverse.dropWhile isWS).reverse

/-- Python str.strip on strings. -/
def trimS (s : String) : String := ⟨trimL s.data⟩

/-- ASCII lower casing of a string (Python str.lower / sqlite lower on ASCII). -/
def lowerS (s : String) : String := ⟨s.data.map Char.toLower⟩

/-- Check that the first list is an initial segment of the second. -/
def leads : List Char → List Char → Bool
  | [], _ => true
  | _ :: _, [] => false
  | a :: as, b :: bs => a = b && leads as bs

/-- Substring test on character lists (Python `x in y`). -/
def substrL (needle : List Char) : List Char → Bool
  | [] => needle.isEmpty
  | c :: rest => leads needle (c :: rest) || substrL needle rest

/-- Case-sensitive substring test on strings. -/
def containsS (hay pat : String) : Bool := substrL pat.data hay.data

/-- Case-insensitive substring test on strings (both sides ASCII-folded). -/
def containsCI (hay pat : String) : Bool :=
  substrL (lowerS pat).data (lowerS hay).data

/-- Join a list of strings with a separator (Python sep.join). -/
def joinSep (sep : String) : List String → String
  | [] => ""
  | [x] => x
  | x :: y :: rest => x ++ sep ++ joinSep sep (y :: rest)

/-- Body of the whitespace collapsing of clean_value: every maximal run of
whitespace characters becomes a single space.  The flag records whether the
previous character belonged to a whitespace run. -/
def collapseGo : Bool → List Char → List Char
  | _, [] => []
  | prevWS, c :: rest =>
    if isWS c then
      if prevWS then collapseGo true rest
      else ' ' :: collapseGo true rest
    else c :: collapseGo false rest

/-- Normalisation applied by clean_value to one string: the source replaces
newlines, carriage returns and tabs by spaces, collapses whitespace runs with
re.sub and strips the ends; the composition collapses every whitespace run to
one space and trims. -/
def cleanStr (s : String) : String := ⟨trimL (collapseGo false s.data)⟩

/-- Split a character list on a separator character (Python str.split with
a one-character separator: the empty input yields one empty part). -/
def splitOnChar (sep : Char) : List Char → List (List Char)
  | [] => [[]]
  | c :: rest =>
    if c = sep then [] :: splitOnChar sep rest
    else
      match splitOnChar sep rest with
      | [] => [[c]]
      | g :: gs => (c :: g) :: gs

/-- Strip period characters from both ends of a character list
(Python str.strip with argument "."). -/
def trimDotsL (l : List Char) : List Char :=
  ((l.dropWhile (fun c => c = '.')).reverse.dropWhile (fun c => c = '.')).reverse

/-- Check that the character list ends with the given suffix. -/
def endsWithL (suf : List Char) (s : List Char) : Bool :=
  leads suf.reverse s.reverse

/-- First result of an option-valued function over a list. -/
def firstSome {α β : Type} (f : α → Option β) : List α → Option β
  | [] => none
  | a :: rest =>
    match f a with
    | some b => some b
    | none => firstSome f rest

/-! ## The document tree -/

/-- Parsed HTML node, the shallow embedding of a BeautifulSoup tag or
navigable string.  Attributes the source consults are carried inline:
the id attribute (extract_warnings), the class attribute (get_medicine
info_div selection) and the href attribute (anchors).  An absent
attribute is the empty string. -/
inductive Node where
  | elem (tag idAttr clsAttr href : String) (children : List Node)
  | text (s : String)

/-- Tag name of a node; text nodes report the empty name. -/
def Node.tag : Node → String
  | .elem t _ _ _ _ => t
  | .text _ => ""

/-- Id attribute of a node. -/
def Node.idAttr : Node → String
  | .elem _ i _ _ _ => i
  | .text _ => ""

/-- Class attribute of a node. -/
def Node.clsAttr : Node → String
  | .elem _ _ c _ _ => c
  | .text _ => ""

/-- Href attribute of a node. -/
def Node.href : Node → String
  | .elem _ _ _ h _ => h
  | .text _ => ""

/-- Whether a node is a tag (BeautifulSoup Tag as opposed to a string). -/
def Node.isElem : Node → Bool
  | .elem _ _ _ _ _ => true
  | .text _ => false

/-- Text payload of a text node. -/
def Node.textOf : Node → Option String
  | .text s => some s
  | .elem _ _ _ _ _ => none

mutual
/-- Document-order listing of a node and everything below it: the node first,
then the listing of each child in order.  This is the next_element order of
BeautifulSoup. -/
def preorder : Node → List Node
  | .text s => [.text s]
  | .elem t i c h cs => .elem t i c h cs :: preorderList cs

/-- Document-order listing of a forest. -/
def preorderList : List Node → List Node
  | [] => []
  | n :: rest => preorder n ++ preorderList rest
end

/-- All nodes strictly below a node in document order (BeautifulSoup
descendants, the search space of find and find_all on a tag). -/
def descendants (n : Node) : List Node :=
  match n with
  | .text _ => []
  | .elem _ _ _ _ cs => preorderList cs

mutual
/-- All matching nodes of a tree in document order, each paired with the list
of its following siblings.  This realises find_all when only the matched tag
matters and find_next_siblings / next_siblings when the continuation after
the match matters. -/
def allWithSibs (p : Node → Bool) : Node → List (Node × List Node)
  | .text _ => []
  | .elem _ _ _ _ cs => allWithSibsList p cs

/-- Forest version of allWithSibs. -/
def allWithSibsList (p : Node → Bool) : List Node → List (Node × List Node)
  | [] => []
  | n :: rest =>
    (if p n then [(n, rest)] else []) ++ allWithSibs p n ++ allWithSibsList p rest
end

/-- First node of a list satisfying the test, paired with the remainder of
the list after it.  Applied to `descendants doc` this realises find together
with find_all_next: the remainder is exactly the document-order tail that
find_all_next iterates. -/
def splitAtFirst (p : Node → Bool) : List Node → Option (Node × List Node)
  | [] => none
  | n :: rest => if p n then some (n, rest) else splitAtFirst p rest

/-- Text fragments below (and at) a node in document order. -/
def textFragments (n : Node) : List String :=
  (preorder n).filterMap Node.textOf

/-- BeautifulSoup get_text with strip=True: each fragment is stripped, empty
fragments are dropped, the rest are joined with the separator. -/
def getTextSep (sep : String) (n : Node) : String :=
  joinSep sep (((textFragments n).map trimS).filter (fun s => s ≠ ""))

/-- get_text(strip=True) as used in heading tests. -/
def getTextS (n : Node) : String := getTextSep "" n

/-- get_text(separator=" ", strip=True) as used when harvesting content. -/
def getTextSp (n : Node) : String := getTextSep " " n

/-- get_text(separator="\n") without stripping, the form _fallback_regex
scans: every fragment kept, joined with newlines. -/
def getTextRaw (n : Node) : String := joinSep "\n" (textFragments n)

/-! ## extract_section (src/app.py lines 52-79) -/

/-- Heading test of extract_section: the source accepts h2 and h3 tags. -/
def isHeadingTag (n : Node) : Bool := n.tag = "h2" || n.tag = "h3"

/-- Whether a tag has a strong descendant (truthiness of p.find("strong")). -/
def hasStrongDesc (n : Node) : Bool :=
  (descendants n).any (fun d => d.tag = "strong")

/-- Primary anchor search of extract_section: for each variant in order,
find the first h2/h3 whose stripped text contains the variant
case-insensitively; an earlier variant wins over a document-earlier heading
that only matches a later variant. -/
def findHeadingAnchor (doc : Node) (variants : List String) :
    Option (Node × List Node) :=
  firstSome
    (fun v => (allWithSibs isHeadingTag doc).find?
      (fun ns => containsCI (getTextS ns.1) v))
    variants

/-- Fallback anchor search of extract_section: for each variant in order,
the first paragraph that has some strong descendant and whose stripped text
contains the variant. -/
def findPStrongAnchor (doc : Node) (variants : List String) :
    Option (Node × List Node) :=
  firstSome
    (fun v => (allWithSibs (fun n => n.tag = "p") doc).find?
      (fun ns => hasStrongDesc ns.1 && containsCI (getTextS ns.1) v))
    variants

/-- Anchor selection of extract_section: headings first, then the
strong-paragraph fallback. -/
def findAnchor (doc : Node) (variants : List String) :
    Option (Node × List Node) :=
  match findHeadingAnchor doc variants with
  | some r => some r
  | none => findPStrongAnchor doc variants

/-- Harvest boundary of extract_section: any h2 or h3, or any paragraph
containing a strong tag anywhere below it. -/
def isBoundary (n : Node) : Bool :=
  isHeadingTag n || (n.tag = "p" && hasStrongDesc n)

/-- Harvest of extract_section: walk the tag siblings after the anchor
(find_next_siblings yields tags only), stop at the first boundary, keep the
non-empty space-joined texts. -/
def harvestSibs (sibs : List Node) : List String :=
  (((sibs.filter Node.isElem).takeWhile (fun s => !isBoundary s)).map
    getTextSp).filter (fun s => s ≠ "")

/-- Translation of extract_section: anchor search followed by sibling
harvest; the result is absent when no anchor is found or nothing non-empty
was harvested. -/
def extract_section (doc : Node) (variants : List String) : Option String :=
  match findAnchor doc variants with
  | none => none
  | some (_, sibs) =>
    match harvestSibs sibs with
    | [] => none
    | parts => some (joinSep "\n" parts)

/-! ## extract_warnings (src/app.py lines 98-117) -/

/-- Phrase extract_warnings looks for. -/
def warnPhrase : String := "what should i know before i"

/-- Section filter of extract_warnings: a section tag whose id attribute
matches the regex ".*-body$", that is, ends with "-body". -/
def sectionBodyP (n : Node) : Bool :=
  n.tag = "section" && endsWithL "-body".data n.idAttr.data

/-- Counting test of extract_warnings: the first h3 of the section exists
and contains the phrase case-insensitively. -/
def warnSection (sec : Node) : Bool :=
  match (descendants sec).find? (fun n => n.tag = "h3") with
  | some h3 => containsCI (getTextS h3) warnPhrase
  | none => false

/-- Content harvest of extract_warnings inside the selected section: the
non-empty texts of every h4, p and ul below the section, in document order. -/
def harvestWarn (sec : Node) : List String :=
  (((descendants sec).filter
      (fun n => n.tag = "h4" || n.tag = "p" || n.tag = "ul")).map
    getTextSp).filter (fun s => s ≠ "")

/-- Translation of extract_warnings: among the sections with a "-body" id
whose first h3 contains the phrase, harvest the second one; anything else
yields the empty list. -/
def extract_warnings (doc : Node) : List String :=
  match ((descendants doc).filter sectionBodyP).filter warnSection with
  | _ :: s2 :: _ => harvestWarn s2
  | _ => []

/-! ## Side effects (src/app.py lines 119-185) -/

/-- Dynamic value as stored in the medicine record: the source mixes
strings, lists of strings and None in the same fields. -/
inductive Val where
  | vStr (s : String)
  | vList (l : List String)
  | vNone
deriving DecidableEq, Repr

/-- Option to value conversion used where the source stores a possibly
absent string. -/
def optVal : Option String → Val
  | some s => .vStr s
  | none => .vNone

/-- Translation of extract_bottom_left_cell: first td/th of the last tr of
the table, stripped; absent when there is no row or no cell. -/
def extract_bottom_left_cell (table : Node) : Option String :=
  match ((descendants table).filter (fun n => n.tag = "tr")).getLast? with
  | none => none
  | some lastRow =>
    match ((descendants lastRow).filter
        (fun c => c.tag = "td" || c.tag = "th")).head? with
    | none => none
    | some cell => some (getTextS cell)

/-- Heading test of extract_side_effects_from_soup. -/
def sideFxHeadP (n : Node) : Bool :=
  n.tag = "h3" && containsCI (getTextS n) "are there any side effects"

/-- Table collection loop of extract_side_effects_from_soup over the
find_all_next tags: append every table, stop after the second table, and
stop at an h2/h3 once at least one table has been seen. -/
def collectTables : List Node → List Node → List Node
  | [], acc => acc
  | n :: rest, acc =>
    if n.tag = "table" then
      if (acc ++ [n]).length = 2 then acc ++ [n]
      else collectTables rest (acc ++ [n])
    else if (n.tag = "h2" || n.tag = "h3") && !acc.isEmpty then acc
    else collectTables rest acc

/-- First non-empty text among the following siblings of a strong tag
(next_siblings iterates strings as well as tags); empty when none exists. -/
def firstTextSib (sibs : List Node) : String :=
  match (sibs.filterMap
      (fun n =>
        match n.textOf with
        | some s => if trimS s ≠ "" then some (trimS s) else none
        | none => none)).head? with
  | some t => t
  | none => ""

/-- Comma parsing of extract_effects_by_strong_order: split the text on
commas, keep the parts with non-empty strip, and strip periods from the
ends of each kept part. -/
def effectsOf (nextText : String) : List String :=
  (splitOnChar ',' nextText.data).filterMap
    (fun part => if trimL part ≠ [] then some ⟨trimDotsL (trimL part)⟩ else none)

/-- Translation of extract_effects_by_strong_order: the first two strong
tags below the start tag (the source calls start_tag.find_all("strong"),
which searches the descendants of the start tag itself), each contributing
the comma-split of the first non-empty text sibling after it; the first
strong feeds the common list, the second the serious list. -/
def extract_effects_by_strong_order (start_tag : Node) :
    List String × List String :=
  match (allWithSibs (fun n => n.tag = "strong") start_tag).take 2 with
  | [] => ([], [])
  | [a] => (effectsOf (firstTextSib a.2), [])
  | a :: b :: _ => (effectsOf (firstTextSib a.2), effectsOf (firstTextSib b.2))

/-- Translation of extract_side_effects_from_soup: absent heading yields two
empty lists; two collected tables yield their bottom-left cells; otherwise
the strong-order fallback contributes only the head of each list. -/
def extract_side_effects_from_soup (doc : Node) : Val × Val :=
  match splitAtFirst sideFxHeadP (descendants doc) with
  | none => (.vList [], .vList [])
  | some (header, after) =>
    match collectTables (after.filter Node.isElem) [] with
    | t0 :: t1 :: _ =>
      (optVal (extract_bottom_left_cell t0), optVal (extract_bottom_left_cell t1))
    | _ =>
      let (cl, sl) := extract_effects_by_strong_order header
      (optVal cl.head?, optVal sl.head?)

/-! ## Document locator (src/app.py lines 189-245) -/

/-- Site base address used by get_medicine. -/
def baseUrl : String := "https://medsinfo.com.au"

/-- Resolution of a listing link against the base address, modelling
urllib.parse.urljoin for the address shapes the site yields: absolute
addresses pass through, root-relative paths are appended to the base
(the base carries no path of its own). -/
def urljoin (base href : String) : String :=
  if leads "http://".data href.data || leads "https://".data href.data then href
  else base ++ href

/-- One listing row of an index page: the visible link text, the text of
the adjacent ingredient annotation (empty when the small tag is missing)
and the link target.  The source lowercases both texts while reading them
out; the model keeps the raw texts and folds at the comparison. -/
structure IdxRow where
  linkText : String
  ingText : String
  href : String
deriving DecidableEq, Repr

/-- Network oracle for index pages: letter and page number to the parsed
listing rows (the anchors whose href contains "/document/"), or none when
the request raises.  The body of the loop in get_medicine consumes exactly
this information from each fetched page. -/
def FetchOracle : Type := Char → Nat → Option (List IdxRow)

/-- Row match of get_medicine: the lowered query equals or is contained in
the lowered link text, or equals or is contained in the lowered ingredient
annotation. -/
def rowMatches (lower : String) (r : IdxRow) : Bool :=
  lower = lowerS r.linkText || containsS (lowerS r.linkText) lower ||
  lower = lowerS r.ingText || containsS (lowerS r.ingText) lower

/-- Uppercase alphabet in the fixed order of string.ascii_uppercase. -/
def uppercaseAZ : List Char := "ABCDEFGHIJKLMNOPQRSTUVWXYZ".data

/-- First character of a string; the source indexes drug.strip()[0] and is
only ever called with a non-empty stripped query (the /add route rejects
blank queries first), so the default branch is never reached there. -/
def headChar (s : String) : Char :=
  match s.data with
  | c :: _ => c
  | [] => 'A'

/-- Search order of get_medicine: the uppercased first character of the
stripped query first, then the remaining A-Z letters in fixed order. -/
def allLetters (drug : String) : List Char :=
  let first := (headChar (trimS drug)).toUpper
  first :: uppercaseAZ.filter (fun L => L ≠ first)

/-- Page loop of get_medicine for one letter, fetching page after page
starting at the given number: a failed fetch ends the letter (the source
logs and breaks), an empty listing ends the letter, a matching row yields
the resolved link, and otherwise the next page is fetched.  The source
loop is unbounded; the fuel bounds the number of pages inspected and every
theorem below supplies enough fuel for the run it describes. -/
def pageLoop (fetch : FetchOracle) (lower : String) (letter : Char) :
    Nat → Nat → Option String
  | 0, _ => none
  | fuel + 1, page =>
    match fetch letter page with
    | none => none
    | some rows =>
      if rows.isEmpty then none
      else
        match rows.find? (rowMatches lower) with
        | some r => some (urljoin baseUrl r.href)
        | none => pageLoop fetch lower letter fuel (page + 1)

/-- Index walk of get_medicine: try every letter of the search order in
turn, returning the first letter whose page loop finds a row; none models
the not-found outcome after all letters are exhausted. -/
def get_medicine_locate (fetch : FetchOracle) (drug : String) (fuel : Nat) :
    Option String :=
  firstSome (fun L => pageLoop fetch (lowerS (trimS drug)) L fuel 1)
    (allLetters drug)

/-! ## Detail page extraction (src/app.py lines 247-381) -/

/-- Words of a class attribute (BeautifulSoup treats the attribute as
whitespace-separated values). -/
def splitWSGo : List Char → List Char → List (List Char)
  | acc, [] => if acc.isEmpty then [] else [acc.reverse]
  | acc, c :: rest =>
    if isWS c then
      if acc.isEmpty then splitWSGo [] rest else acc.reverse :: splitWSGo [] rest
    else splitWSGo (c :: acc) rest

/-- Class membership test (class_="value" in BeautifulSoup). -/
def hasClass (n : Node) (c : String) : Bool :=
  (splitWSGo [] n.clsAttr.data).any (fun w => w = c.data)

/-- Scope selection of get_medicine: the drug-info div, else the
document-page article, else the whole document. -/
def infoDiv (doc : Node) : Node :=
  match (descendants doc).find? (fun n => n.tag = "div" && hasClass n "drug-info") with
  | some d => d
  | none =>
    match (descendants doc).find?
        (fun n => n.tag = "article" && hasClass n "document-page") with
    | some d => d
    | none => doc

/-- Record name of get_medicine: the stripped text of the first h1 of the
info scope, else the stripped query. -/
def titleOf (doc : Node) (drug : String) : String :=
  match (descendants (infoDiv doc)).find? (fun n => n.tag = "h1") with
  | some h1 => getTextS h1
  | none => trimS drug

/-- Case-insensitive leading-segment test used to model re.IGNORECASE
scanning over the original text. -/
def leadsCI : List Char → List Char → Bool
  | [], _ => true
  | _ :: _, [] => false
  | a :: as, b :: bs => a.toLower = b.toLower && leadsCI as bs

/-- Lazy capture of the active-ingredient regex after the literal: the
shortest non-empty run of non-newline characters followed by a period.
The accumulator holds the consumed characters reversed. -/
def dotScan : List Char → List Char → Option (List Char)
  | _, [] => none
  | acc, c :: rest =>
    if c = '.' then some acc.reverse
    else if c = '\n' then none
    else dotScan (c :: acc) rest

/-- Start of the lazy capture: at least one character, none of them a
newline, up to the first period. -/
def ingCapture : List Char → Option (List Char)
  | [] => none
  | c :: rest => if c = '\n' then none else dotScan [c] rest

/-- Remainder handling after the matched literal: optional plural s, then
the whitespace run, then the capture; if the plural branch fails the
literal-only branch is tried, matching the regex backtracking.  Deeper
backtracking into the whitespace run is not modelled. -/
def ingAfterLit (r : List Char) : Option (List Char) :=
  let withS : Option (List Char) :=
    match r with
    | 's' :: r2 => ingCapture (r2.dropWhile isWS)
    | _ => none
  match withS with
  | some g => some g
  | none => ingCapture (r.dropWhile isWS)

/-- Scan of re.search for the active-ingredient pattern over the lowered
paragraph text: try every position; at each occurrence of the literal
attempt the capture, else move on. -/
def ingSearch : List Char → Option (List Char)
  | [] => none
  | c :: rest =>
    if leads "contains the active ingredient".data (c :: rest) then
      match ingAfterLit ((c :: rest).drop 30) with
      | some g => some g
      | none => ingSearch rest
    else ingSearch rest

/-- Splitter of re.split for " and " and comma-plus-whitespace, scanning
left to right; the flag records that a comma delimiter is still consuming
its trailing whitespace run (inside which no alternative can start). -/
def splitIngGo : Bool → List Char → List Char → List (List Char)
  | _, acc, [] => [acc.reverse]
  | true, acc, c :: rest =>
    if isWS c then splitIngGo true acc rest
    else if c = ',' then acc.reverse :: splitIngGo true [] rest
    else splitIngGo false (c :: acc) rest
  | false, acc, ' ' :: 'a' :: 'n' :: 'd' :: ' ' :: rest =>
    acc.reverse :: splitIngGo false [] rest
  | false, acc, c :: rest =>
    if c = ',' then acc.reverse :: splitIngGo true [] rest
    else splitIngGo false (c :: acc) rest

/-- Ingredient assembly from the captured group: split on " and " and
commas, strip each part, join with comma-space. -/
def ingJoin (g : List Char) : String :=
  joinSep ", " ((splitIngGo false [] g).map (fun p => trimS ⟨p⟩))

/-- Walk of the first-tier ingredient extraction after the "why am I
taking/using" heading: over the following tags in document order, stop at
an h2/h3; at the first paragraph whose lowered stripped text contains the
phrase, run the regex and stop regardless of its success. -/
def ingWalk : List Node → Option String
  | [] => none
  | n :: rest =>
    if n.tag = "h2" || n.tag = "h3" then none
    else if n.tag = "p" &&
        containsS (lowerS (getTextS n)) "contains the active ingredient" then
      match ingSearch (lowerS (getTextS n)).data with
      | some g => some (ingJoin g)
      | none => none
    else ingWalk rest

/-- First tier of the ingredient extraction (src/app.py lines 268-290). -/
def ingFromWhy (doc : Node) : Option String :=
  match splitAtFirst
      (fun n => isHeadingTag n &&
        (containsCI (getTextS n) "why am i taking" ||
         containsCI (getTextS n) "why am i using"))
      (descendants doc) with
  | none => none
  | some (_, after) => ingWalk (after.filter Node.isElem)

/-- Last-resort regex of the ingredient extraction over the whole document
text joined with newlines: find "active ingredient" case-insensitively,
skip an optional colon and whitespace, capture the rest of the line, strip
it; an empty capture line makes the scan move on. -/
def regexActiveIngGo : List Char → Option String
  | [] => none
  | c :: rest =>
    if leadsCI "active ingredient".data (c :: rest) then
      let r1 := (c :: rest).drop 17
      let r2 := match r1 with
        | ':' :: r3 => r3
        | _ => r1
      let g := trimL ((r2.dropWhile isWS).takeWhile (fun ch => ch ≠ '\n'))
      if g.isEmpty then regexActiveIngGo rest else some ⟨g⟩
    else regexActiveIngGo rest

/-- Translation of _fallback_regex specialised to the active-ingredient
pattern it is invoked with. -/
def fallbackRegexIng (doc : Node) : Option String :=
  regexActiveIngGo (getTextRaw doc).data

/-- Non-empty texts of the li descendants of a list tag. -/
def liTexts (ul : Node) : List String :=
  (((descendants ul).filter (fun n => n.tag = "li")).map getTextSp).filter
    (fun s => s ≠ "")

/-- Sibling walk shared by the dosage and interaction harvests: over the
tag siblings after the heading, stop at an h2/h3 with nothing, and at the
first ul return its item texts. -/
def ulWalk : List Node → List String
  | [] => []
  | s :: rest =>
    if s.tag = "h2" || s.tag = "h3" then []
    else if s.tag = "ul" then liTexts s
    else ulWalk rest

/-- Dosage heading test of get_medicine. -/
def doseHeadingP (n : Node) : Bool :=
  isHeadingTag n &&
    (containsCI (getTextS n) "how do i use" ||
     containsCI (getTextS n) "how do i take" ||
     containsCI (getTextS n) "how to take")

/-- List harvest of the dosage section: from the first dosage heading,
collect the first embedded list. -/
def doseHarvest (doc : Node) : List String :=
  match (allWithSibs doseHeadingP doc).head? with
  | some (_, sibs) => ulWalk (sibs.filter Node.isElem)
  | none => []

/-- Interaction heading selection of get_medicine: among the h2/h3 headings
containing "other medicines", the second when there are at least two, else
the first, else none. -/
def interTarget (doc : Node) : Option (Node × List Node) :=
  match allWithSibs
      (fun n => isHeadingTag n && containsCI (getTextS n) "other medicines")
      doc with
  | _ :: second :: _ => some second
  | [only] => some only
  | [] => none

/-- List harvest of the interaction section. -/
def interHarvest (doc : Node) : List String :=
  match interTarget doc with
  | some (_, sibs) => ulWalk (sibs.filter Node.isElem)
  | none => []

/-- Inner string of a tag in the sense of BeautifulSoup Tag.string: a chain
of single children ending in a text node. -/
def nodeString : Node → Option String
  | .text s => some s
  | .elem _ _ _ _ [c] => nodeString c
  | .elem _ _ _ _ _ => none

/-- Anchor search of the PDF attachment: first an anchor whose href
contains "format=pdf" case-insensitively, else an anchor whose string
contains "Download PDF" case-insensitively. -/
def pdfAnchorHref (doc : Node) : Option String :=
  match (descendants doc).find?
      (fun n => n.tag = "a" && containsCI n.href "format=pdf") with
  | some a => some a.href
  | none =>
    match (descendants doc).find?
        (fun n => n.tag = "a" &&
          (match nodeString n with
           | some s => containsCI s "Download PDF"
           | none => false)) with
    | some a => some a.href
    | none => none

/-- Resolved attachment address: present when an anchor was found and its
href attribute is non-empty (truthiness of a_pdf.get("href")). -/
def pdfHref (doc : Node) : Option String :=
  match pdfAnchorHref doc with
  | some h => if h ≠ "" then some (urljoin baseUrl h) else none
  | none => none

/-- Python truthiness filter applied to each side-effect value before it
enters the record: empty string, empty list and None all become None. -/
def truthy : Val → Val
  | .vStr s => if s = "" then .vNone else .vStr s
  | .vList l => if l.isEmpty then .vNone else .vList l
  | .vNone => .vNone

/-- Scraped medicine record, the dictionary get_medicine returns.  The url
and name are always strings; every other field carries the mixed
string/list/None payload of the source. -/
structure MedRec where
  url : String
  name : String
  ingredient : Val
  dosage : Val
  contraindications : Val
  warnings : Val
  interactions : Val
  common_side_effects : Val
  serious_side_effects : Val
  overdose_info : Val
  pdf_url : Val
  pdf_filename : Val
deriving DecidableEq, Repr

/-- Record assembly half of get_medicine (src/app.py lines 256-381): run
every extractor over the fetched detail document and fill the record; the
PDF download is an oracle from the resolved address and record name to the
saved filename, none modelling a failed download (download_pdf catches
every exception and returns None). -/
def get_medicine_assemble (doc : Node) (detail drug : String)
    (download : String → String → Option String) : MedRec :=
  let title := titleOf doc drug
  let ing : Val :=
    match ingFromWhy doc with
    | some s => .vStr s
    | none =>
      match extract_section doc ["Active ingredient"] with
      | some s => .vStr s
      | none => optVal (fallbackRegexIng doc)
  let doseList := doseHarvest doc
  let dose : Val :=
    if !doseList.isEmpty then .vList doseList
    else optVal (extract_section doc ["How to take", "How do I use", "How do I take"])
  let sfx := extract_side_effects_from_soup doc
  let interList := interHarvest doc
  let inter : Val :=
    if !interList.isEmpty then
      .vStr (joinSep "\n" (interList.map (fun i => "- " ++ i)))
    else optVal (extract_section doc ["What if I am taking other medicines"])
  let ph := pdfHref doc
  let pf : Option String :=
    match ph with
    | some h => download h title
    | none => none
  { url := detail
    name := title
    ingredient := ing
    dosage := dose
    contraindications := optVal (extract_section doc ["Do not use if"])
    warnings := .vList (extract_warnings doc)
    interactions := inter
    common_side_effects := truthy sfx.1
    serious_side_effects := truthy sfx.2
    overdose_info := optVal (extract_section doc ["If you take too much", "Overdose"])
    pdf_url := optVal ph
    pdf_filename := optVal pf }

/-! ## clean_value and the store (src/app.py lines 382-469) -/

/-- Translation of clean_value over the dynamic values that actually reach
it: a list is cleaned element-wise and space-joined into one string, a
string is cleaned, None passes through.  The dict branch of the source is
never reached, since no record field holds a dict. -/
def clean_value : Val → Val
  | .vList l => .vStr (joinSep " " (l.map cleanStr))
  | .vStr s => .vStr (cleanStr s)
  | .vNone => .vNone

/-- Stored row of the medicines table; the id column is immaterial to the
claims and omitted.  Url and name are NOT NULL strings, every other
column is a cleaned value. -/
structure StoredRow where
  url : String
  name : String
  ingredient : Val
  dosage : Val
  contraindications : Val
  warnings : Val
  interactions : Val
  common_side_effects : Val
  serious_side_effects : Val
  overdose_info : Val
  pdf_url : Val
  pdf_filename : Val
deriving DecidableEq, Repr

/-- Row built by the insert of the /add route: clean_value applied to each
of the twelve record fields in order. -/
def cleanRow (m : MedRec) : StoredRow :=
  { url := cleanStr m.url
    name := cleanStr m.name
    ingredient := clean_value m.ingredient
    dosage := clean_value m.dosage
    contraindications := clean_value m.contraindications
    warnings := clean_value m.warnings
    interactions := clean_value m.interactions
    common_side_effects := clean_value m.common_side_effects
    serious_side_effects := clean_value m.serious_side_effects
    overdose_info := clean_value m.overdose_info
    pdf_url := clean_value m.pdf_url
    pdf_filename := clean_value m.pdf_filename }

/-- Case-insensitive name equality: lower(name)=lower(?) in the cache
lookup, and the comparison of the UNIQUE COLLATE NOCASE constraint and of
the post-insert re-read. -/
def eqCI (a b : String) : Bool := lowerS a = lowerS b

/-- Origin tag attached to the served record. -/
inductive Origin where
  | cache
  | remote
deriving DecidableEq, Repr

/-- Outcome of the /add route.  integrityError models the uncaught
sqlite3.IntegrityError of the insert (the route wraps only the
get_medicine call in try/except, so the violation escapes to Flask as an
internal server error); rereadError models the TypeError raised when the
re-read after the insert finds no row. -/
inductive AddOut where
  | badRequest
  | fetchError
  | notFound
  | ok (row : StoredRow) (src : Origin)
  | integrityError
  | rereadError
deriving DecidableEq, Repr

/-- Observable effects of one /add request: the network scrape and the
insert attempt. -/
inductive Ev where
  | netFetch
  | dbInsert
deriving DecidableEq, Repr

/-- Translation of the /add route body (src/app.py lines 394-442).  The
scrape argument stands for the get_medicine call: error for an exception,
none for an unresolved query, some for a scraped record.  The two store
arguments are the table contents seen by the cache lookup and by the
insert; a sequential run passes the same list twice, while a concurrent
writer between the two statements makes them differ.  The returned triple
is the event trace, the table contents after the request and the response.
The route fetches before it consults the cache, because the cache key is
the scraped name, not the query. -/
def add (q : String) (scrape : Except Unit (Option MedRec))
    (dbL dbI : List StoredRow) : List Ev × List StoredRow × AddOut :=
  if trimS q = "" then ([], dbI, .badRequest)
  else
    match scrape with
    | .error _ => ([.netFetch], dbI, .fetchError)
    | .ok none => ([.netFetch], dbI, .notFound)
    | .ok (some res) =>
      match dbL.find? (fun r => eqCI r.name res.name) with
      | some row => ([.netFetch], dbI, .ok row .cache)
      | none =>
        if dbI.any (fun r => eqCI r.name (cleanStr res.name)) then
          ([.netFetch, .dbInsert], dbI, .integrityError)
        else
          match (dbI ++ [cleanRow res]).find? (fun r => eqCI r.name res.name) with
          | some row2 => ([.netFetch, .dbInsert], dbI ++ [cleanRow res], .ok row2 .remote)
          | none => ([.netFetch, .dbInsert], dbI ++ [cleanRow res], .rereadError)

/-- Outcome of the /delete route. -/
inductive DelOut where
  | badRequest
  | noMatch
  | deleted (u : String)
deriving DecidableEq, Repr

/-- Translation of the /delete route body (src/app.py lines 459-469): the
query is stripped, then DELETE FROM medicines WHERE url=? runs with the
rowcount check; the url column carries the default binary collation, so
the match is exact. -/
def delete (q : String) (db : List StoredRow) : List StoredRow × DelOut :=
  let u := trimS q
  if u = "" then (db, .badRequest)
  else
    let remaining := db.filter (fun r => r.url ≠ u)
    if remaining.length = db.length then (db, .noMatch)
    else (remaining, .deleted u)

/-! ## Claim-side renderings

The next definitions do not translate source code: each renders the words
of one spec claim, to be compared with the source translation above on a
concrete document. -/

/-- Children of a node. -/
def Node.children : Node → List Node
  | .elem _ _ _ _ cs => cs
  | .text _ => []

/-- First child that is content: a tag, or a text fragment whose strip is
non-empty. -/
def firstContentChild (n : Node) : Option Node :=
  n.children.find?
    (fun c =>
      match c with
      | .text s => trimS s ≠ ""
      | .elem _ _ _ _ _ => true)

/-- Bold-led paragraph in the sense of the spec glossary: a paragraph whose
leading content is an emphasized run. -/
def isBoldLed (n : Node) : Bool :=
  n.tag = "p" &&
    (match firstContentChild n with
     | some c => c.tag = "strong"
     | none => false)

/-- Claim C6 rendering of the harvest boundary: the next heading of the
same structural level as the anchor, or the next bold-led paragraph. -/
def specBoundary (anchorTag : String) (n : Node) : Bool :=
  n.tag = anchorTag || isBoldLed n

/-- Claim C6 rendering of extract_section: same anchor search, but the
harvest stops only at a heading of the anchor level or at a bold-led
paragraph. -/
def specExtractSection (doc : Node) (variants : List String) : Option String :=
  match findAnchor doc variants with
  | none => none
  | some (anchor, sibs) =>
    match (((sibs.filter Node.isElem).takeWhile
        (fun s => !specBoundary anchor.tag s)).map getTextSp).filter
        (fun s => s ≠ "") with
    | [] => none
    | parts => some (joinSep "\n" parts)

/-- Matching warnings heading in the sense of claim C5. -/
def warnMatchH3 (n : Node) : Bool :=
  n.tag = "h3" && containsCI (getTextS n) warnPhrase

/-- Number of matching warnings headings below a section. -/
def matchCountIn (sec : Node) : Nat :=
  ((descendants sec).filter warnMatchH3).length

/-- Walk of the claim C5 rendering: find the section containing the second
matching heading of the document (cumulative count over the sections in
order) and harvest it. -/
def specWarnGo : Nat → List Node → List String
  | _, [] => []
  | acc, s :: rest =>
    if acc < 2 && 2 ≤ acc + matchCountIn s then harvestWarn s
    else specWarnGo (acc + matchCountIn s) rest

/-- Claim C5 rendering of extract_warnings: content of the section of the
second matching heading occurrence, first occurrence ignored. -/
def specWarnings (doc : Node) : List String :=
  specWarnGo 0 ((descendants doc).filter sectionBodyP)

/-- Claim C4 rendering of the side-effect fallback: the first two
emphasized runs of the document each yield the full comma-split list of
the first non-empty text after the run.  On the counterexample document
every strong tag sits after the side-effects heading and none inside it,
so these are exactly the runs the claim designates. -/
def specSideFxFallback (doc : Node) : List String × List String :=
  match (allWithSibs (fun n => n.tag = "strong") doc).take 2 with
  | [] => ([], [])
  | [a] => (effectsOf (firstTextSib a.2), [])
  | a :: b :: _ => (effectsOf (firstTextSib a.2), effectsOf (firstTextSib b.2))

/-! ## Concrete documents and records for the witnesses and
counterexamples -/

/-- Element with no attributes. -/
def el (tag : String) (cs : List Node) : Node := .elem tag "" "" "" cs

/-- Text node. -/
def tx (s : String) : Node := .text s

/-- Side-effects heading of the C4 documents; it contains no strong tag. -/
def exC4h : Node := el "h3" [tx "Are there any side effects?"]

/-- Emphasized run of the C4 fallback document. -/
def exC4strong : Node := el "strong" [tx "Common side effects"]

/-- Paragraph after the heading of the C4 fallback document: an emphasized
run followed by a comma list. -/
def exC4p : Node := el "p" [exC4strong, tx "nausea, headache."]

/-- Document of the C4 counterexample: side-effects heading with no table
after it and no strong inside it, and one emphasized run after the heading
whose following text is a comma list. -/
def exC4 : Node := el "body" [exC4h, exC4p]

/-- First table of the two-table C4 document; its bottom-left cell reads
common-cell. -/
def exT1 : Node :=
  el "table"
    [el "tr" [el "td" [tx "c-top"]],
     el "tr" [el "td" [tx "common-cell"], el "td" [tx "x"]]]

/-- Second table of the two-table C4 document; its bottom-left cell reads
serious-cell. -/
def exT2 : Node :=
  el "table"
    [el "tr" [el "td" [tx "s-top"]],
     el "tr" [el "td" [tx "serious-cell"], el "td" [tx "y"]]]

/-- Two-table document for the C4 witness. -/
def exC4T : Node := el "body" [exC4h, exT1, exT2]

/-- First body section of the C5 document: its first h3 is the first
matching heading occurrence. -/
def exC5s1 : Node :=
  Node.elem "section" "s1-body" "" ""
    [el "h3" [tx "What should I know before I take it?"], el "p" [tx "A"]]

/-- Second body section of the C5 document: its first h3 is a storage
heading, and the second matching heading occurrence of the document sits
behind it. -/
def exC5s2 : Node :=
  Node.elem "section" "s2-body" "" ""
    [el "h3" [tx "Storage"],
     el "h3" [tx "What should I know before I use it?"], el "p" [tx "B"]]

/-- Third body section of the C5 document: its first h3 is the third
matching heading occurrence. -/
def exC5s3 : Node :=
  Node.elem "section" "s3-body" "" ""
    [el "h3" [tx "What should I know before I stop taking it?"],
     el "p" [tx "C"]]

/-- Document of the C5 theorems: three body sections with three matching
heading occurrences among them. -/
def exC5 : Node := el "body" [exC5s1, exC5s2, exC5s3]

/-- Anchor heading of the C6 document. -/
def exC6h : Node := el "h2" [tx "How do I store this medicine?"]

/-- Plain paragraph before the emphasized paragraph of the C6 document. -/
def exC6p1 : Node := el "p" [tx "Keep cool"]

/-- Paragraph of the C6 document whose strong run is not leading. -/
def exC6p2 : Node :=
  el "p" [tx "Ask ", el "strong" [tx "your pharmacist"], tx " about disposal"]

/-- Plain paragraph after the emphasized paragraph of the C6 document. -/
def exC6p3 : Node := el "p" [tx "Keep dry"]

/-- Document of the C6 counterexample: a heading anchor followed by plain
prose, a paragraph whose strong run is not leading, and more prose. -/
def exC6 : Node := el "body" [exC6h, exC6p1, exC6p2, exC6p3]

/-- Document of the C7 witness: the heading matching the second variant
comes first in the document, the heading matching the first variant later. -/
def exC7 : Node :=
  el "body"
    [el "h2" [tx "How do I take it?"], el "p" [tx "Take content"],
     el "h2" [tx "How do I use it?"], el "p" [tx "Use content"]]

/-- Document of the C8 theorems: a detail page with a name, a PDF anchor
and nothing else. -/
def exC8 : Node :=
  el "body"
    [el "h1" [tx "Panadol"],
     Node.elem "a" "" "" "/Files/panadol.pdf?format=pdf" [tx "Download PDF"]]

/-- Download oracle that always fails (download_pdf returning None). -/
def failDl : String → String → Option String := fun _ _ => none

/-- Fields of a record other than the attachment pair, used to state that
a failed download leaves the rest of the record intact. -/
def coreOf (r : MedRec) :=
  (r.url, r.name, r.ingredient, r.dosage, r.contraindications, r.warnings,
   r.interactions, r.common_side_effects, r.serious_side_effects, r.overdose_info)

/-- Index oracle of the C3 witness for the query Panadol: the expected
bucket P fails with a network error, bucket A lists a non-matching row on
page one and an ingredient-matching row on page two, and every other
bucket is empty. -/
def exFetch : FetchOracle := fun L p =>
  if L = 'P' then none
  else if L = 'A' then
    (if p = 1 then some [⟨"Aspirin", "aspirin", "/document/aspirin-cmi"⟩]
     else if p = 2 then some [⟨"Someol", "panadol compound", "/document/someol-cmi"⟩]
     else some [])
  else some []

/-- Scraped record used by the store theorems. -/
def exMed : MedRec :=
  { url := "https://medsinfo.com.au/document/panadol-cmi"
    name := "Panadol"
    ingredient := .vStr "paracetamol"
    dosage := .vList ["Take one tablet", "Wait  four\nhours"]
    contraindications := .vNone
    warnings := .vList []
    interactions := .vNone
    common_side_effects := .vStr "nausea"
    serious_side_effects := .vNone
    overdose_info := .vNone
    pdf_url := .vNone
    pdf_filename := .vNone }

/-- Row stored by a concurrent writer under the same case-insensitive
name. -/
def exRowB : StoredRow :=
  { url := "https://medsinfo.com.au/document/panadol-other"
    name := "PANADOL"
    ingredient := .vStr "paracetamol"
    dosage := .vNone
    contraindications := .vNone
    warnings := .vStr ""
    interactions := .vNone
    common_side_effects := .vNone
    serious_side_effects := .vNone
    overdose_info := .vNone
    pdf_url := .vNone
    pdf_filename := .vNone }

/-- Two rows sharing one url under distinct names, a store state the
schema admits (only the name is unique). -/
def rowU1 : StoredRow :=
  { url := "https://medsinfo.com.au/document/shared"
    name := "Alpha"
    ingredient := .vNone, dosage := .vNone, contraindications := .vNone
    warnings := .vStr "", interactions := .vNone
    common_side_effects := .vNone, serious_side_effects := .vNone
    overdose_info := .vNone, pdf_url := .vNone, pdf_filename := .vNone }

/-- Second row with the shared url. -/
def rowU2 : StoredRow :=
  { url := "https://medsinfo.com.au/document/shared"
    name := "Beta"
    ingredient := .vNone, dosage := .vNone, contraindications := .vNone
    warnings := .vStr "", interactions := .vNone
    common_side_effects := .vNone, serious_side_effects := .vNone
    overdose_info := .vNone, pdf_url := .vNone, pdf_filename := .vNone }

/-! ## Shared lemmas -/

/-- A positive any test yields a successful find on the same list. -/
theorem anyFindSome {α : Type} (p : α → Bool) :
    ∀ l : List α, l.any p = true → ∃ x, l.find? p = some x
  | [], h => by simp at h
  | a :: t, h => by
    by_cases hp : p a
    · exact ⟨a, List.find?_cons_of_pos t hp⟩
    · have ht : t.any p = true := by
        simpa [List.any_cons, hp] using h
      obtain ⟨x, hx⟩ := anyFindSome p t ht
      exact ⟨x, (List.find?_cons_of_neg t hp).trans hx⟩

/-- An everywhere-failing function makes firstSome fail. -/
theorem firstSome_eq_none {α β : Type} (f : α → Option β) :
    ∀ l : List α, (∀ a ∈ l, f a = none) → firstSome f l = none
  | [], _ => rfl
  | a :: t, h => by
    have ha := h a (List.mem_cons_self a t)
    have ht := firstSome_eq_none f t (fun x hx => h x (List.mem_cons_of_mem a hx))
    simp [firstSome, ha, ht]

/-- Partition of a row list by one url value. -/
theorem filter_url_partition (u : String) :
    ∀ db : List StoredRow,
      (db.filter (fun r => r.url = u)).length +
        (db.filter (fun r => r.url ≠ u)).length = db.length
  | [] => rfl
  | r :: t => by
    have ih := filter_url_partition u t
    by_cases hr : r.url = u
    · simp [List.filter_cons, hr, ← ih]
      omega
    · simp [List.filter_cons, hr, ← ih]
      omega

/-! ## Claim C1 -/

/--
Counterexample to claim C1.  The claim states that a uniqueness violation
on insert is recovered transparently: the row is re-read and returned with
origin cache, and the violation is never surfaced as an error.  In the
source the try/except of the /add route wraps only the get_medicine call;
the INSERT is executed bare, so a sqlite3.IntegrityError from the UNIQUE
COLLATE NOCASE name column escapes the route.  Concretely: the lookup
snapshot is empty, a concurrent writer has stored the same name
case-insensitively by insert time, and the request ends in the uncaught
integrity error rather than in a cache-tagged row.
-/
theorem C1_counterexample :
    add "panadol" (.ok (some exMed)) [] [exRowB] =
      ([Ev.netFetch, Ev.dbInsert], [exRowB], AddOut.integrityError) := by decide

/--
Claim C1, amended: if the scraped name misses the cache at lookup time but
a case-insensitively equal name is present at insert time, the /add route
does not recover; the uniqueness violation surfaces as an uncaught error
(an internal server error at the Flask boundary) and the store is left
unchanged.  No re-read happens and no cache-tagged row is returned.
-/
theorem C1_integrity_error_surfaces (q : String) (res : MedRec)
    (dbL dbI : List StoredRow)
    (hq : trimS q ≠ "")
    (hmiss : dbL.find? (fun r => eqCI r.name res.name) = none)
    (hconf : dbI.any (fun r => eqCI r.name (cleanStr res.name)) = true) :
    add q (.ok (some res)) dbL dbI =
      ([.netFetch, .dbInsert], dbI, .integrityError) := by
  simp [add, hq, hmiss, hconf]

/-- Witness for the amended C1 theorem at a concrete conflicting store. -/
theorem C1_integrity_error_surfaces_witness :
    add "Panadol Extra" (.ok (some exMed)) [] [exRowB] =
      ([Ev.netFetch, Ev.dbInsert], [exRowB], AddOut.integrityError) :=
  C1_integrity_error_surfaces "Panadol Extra" exMed [] [exRowB]
    (by decide) (by decide) (by decide)

/-! ## Claim C2 -/

/--
Counterexample to claim C2.  The claim states that a query whose scraped
name is cached performs no network fetch.  In the source the cache is
keyed by the scraped name, so get_medicine runs before the lookup on
every request: the event trace of a cache hit still contains the network
fetch.
-/
theorem C2_counterexample :
    add "Panadol" (.ok (some exMed)) [cleanRow exMed] [cleanRow exMed] =
      ([Ev.netFetch], [cleanRow exMed], AddOut.ok (cleanRow exMed) .cache) ∧
    Ev.netFetch ∈ [Ev.netFetch] := by decide

/--
Claim C2, amended: when the scraped name is already stored under
case-insensitive comparison, /add returns that row tagged cache and
performs no write (no insert event, store unchanged) — but the network
scrape has already run, since the cache key is the scraped name rather
than the raw query.
-/
theorem C2_cache_hit_after_fetch (q : String) (res : MedRec)
    (dbL dbI : List StoredRow) (row : StoredRow)
    (hq : trimS q ≠ "")
    (hhit : dbL.find? (fun r => eqCI r.name res.name) = some row) :
    add q (.ok (some res)) dbL dbI = ([.netFetch], dbI, .ok row .cache) := by
  simp [add, hq, hhit]

/-- Witness for the amended C2 theorem at a concrete cached store. -/
theorem C2_cache_hit_after_fetch_witness :
    add "PANADOL" (.ok (some exMed)) [cleanRow exMed] [cleanRow exMed] =
      ([Ev.netFetch], [cleanRow exMed], AddOut.ok (cleanRow exMed) .cache) :=
  C2_cache_hit_after_fetch "PANADOL" exMed [cleanRow exMed] [cleanRow exMed]
    (cleanRow exMed) (by decide) (by decide)

/-! ## Claim C9 -/

/--
Counterexample to claim C9.  The claim states that deleting a present url
removes exactly one row.  The url column carries no uniqueness constraint
(only the name does), and DELETE FROM medicines WHERE url=? removes every
matching row: on a store holding two distinctly named rows with the same
url, the delete removes both.
-/
theorem C9_counterexample :
    delete "https://medsinfo.com.au/document/shared" [rowU1, rowU2] =
      ([], DelOut.deleted "https://medsinfo.com.au/document/shared") ∧
    [rowU1, rowU2].length = 2 := by decide

/--
Claim C9, amended: deleting a url absent from the store reports no match
and leaves every row unchanged; deleting a present url removes exactly
the rows bearing that url — exactly one whenever the url is stored once —
and leaves all rows with other urls unchanged.
-/
theorem C9_delete_by_url (u : String) (db : List StoredRow)
    (htrim : trimS u = u) :
    (u ≠ "" → (∀ r ∈ db, r.url ≠ u) → delete u db = (db, .noMatch)) ∧
    (u ≠ "" → (∃ r ∈ db, r.url = u) →
      delete u db = (db.filter (fun r => r.url ≠ u), .deleted u)) ∧
    ((db.filter (fun r => r.url = u)).length = 1 →
      (db.filter (fun r => r.url ≠ u)).length + 1 = db.length) := by
  refine ⟨?_, ?_, ?_⟩
  · intro hu hall
    have hfil : db.filter (fun r => r.url ≠ u) = db :=
      List.filter_eq_self.mpr (fun a ha => by simpa using hall a ha)
    simp [delete, htrim, hu, hfil]
    exact hall
  · intro hu hex
    obtain ⟨r, hr, hru⟩ := hex
    have hlt : (db.filter (fun r => r.url ≠ u)).length < db.length := by
      have hmem : r ∈ db.filter (fun r => r.url = u) := by
        simp [List.mem_filter, hr, hru]
      have hpos : 0 < (db.filter (fun r => r.url = u)).length :=
        List.length_pos.mpr (List.ne_nil_of_mem hmem)
      have := filter_url_partition u db
      omega
    have hne : ¬ (db.filter (fun r => r.url ≠ u)).length = db.length :=
      Nat.ne_of_lt hlt
    simp [delete, htrim, hu, hne]
    exact ⟨r, hr, hru⟩
  · intro hone
    have := filter_url_partition u db
    omega

/-- Witness for the amended C9 theorem: the not-found branch, the found
branch and the exactly-one count at concrete stores. -/
theorem C9_delete_by_url_witness :
    delete "https://medsinfo.com.au/document/absent" [rowU1] = ([rowU1], .noMatch) ∧
    delete "https://medsinfo.com.au/document/shared" [rowU1] =
      ([rowU1].filter (fun r => r.url ≠ "https://medsinfo.com.au/document/shared"),
        .deleted "https://medsinfo.com.au/document/shared") ∧
    ([rowU1].filter
        (fun r => r.url ≠ "https://medsinfo.com.au/document/shared")).length + 1 =
      [rowU1].length :=
  ⟨(C9_delete_by_url "https://medsinfo.com.au/document/absent" [rowU1]
      (by decide)).1 (by decide) (by decide),
   (C9_delete_by_url "https://medsinfo.com.au/document/shared" [rowU1]
      (by decide)).2.1 (by decide) ⟨rowU1, by simp, by decide⟩,
   (C9_delete_by_url "https://medsinfo.com.au/document/shared" [rowU1]
      (by decide)).2.2 (by decide)⟩

/-! ## Claim C10 -/

/--
Claim C10, confirmed: the row persisted by the insert of /add is the
record with clean_value applied to every field; a list value becomes the
single string of its whitespace-collapsed, stripped elements joined with
spaces, a string value is whitespace-collapsed and stripped, and in
particular an empty harvested list is stored as the empty string rather
than as a null field.
-/
theorem C10_clean_before_persist :
    (∀ (q : String) (res : MedRec) (dbL dbI : List StoredRow),
      trimS q ≠ "" →
      dbL.find? (fun r => eqCI r.name res.name) = none →
      dbI.any (fun r => eqCI r.name (cleanStr res.name)) = false →
      (add q (.ok (some res)) dbL dbI).2.1 = dbI ++ [cleanRow res]) ∧
    (∀ l : List String, clean_value (.vList l) = .vStr (joinSep " " (l.map cleanStr))) ∧
    (∀ s : String, clean_value (.vStr s) = .vStr (cleanStr s)) ∧
    clean_value (.vList []) = .vStr "" := by
  refine ⟨?_, fun l => rfl, fun s => rfl, rfl⟩
  intro q res dbL dbI hq hmiss hconf
  simp [add, hq, hmiss, hconf]
  split <;> rfl

/-- Witness for C10 at a concrete record whose dosage list carries
newlines, tabs and space runs, and whose warnings list is empty. -/
theorem C10_clean_before_persist_witness :
    (add "panadol" (.ok (some exMed)) [] []).2.1 = [] ++ [cleanRow exMed] ∧
    (cleanRow exMed).dosage = Val.vStr "Take one tablet Wait four hours" ∧
    (cleanRow exMed).warnings = Val.vStr "" :=
  ⟨C10_clean_before_persist.1 "panadol" exMed [] [] (by decide) (by decide) (by decide),
   by decide, by decide⟩

/-! ## Claim C3 -/

/--
Claim C3, confirmed: the locator visits buckets starting with the
uppercased first character of the query and then the remaining letters in
fixed A-Z order (first two conjuncts); within a letter pages are fetched
sequentially from page one (fifth conjunct steps to the next page, sixth
stops on the first match); a page with zero listing rows ends the letter
(fourth conjunct); a network failure on an index page aborts only that
letter (third conjunct) and the walk proceeds with the remaining letters
(seventh conjunct); exhausting every letter without a match yields the
not-found outcome (eighth conjunct).
-/
theorem C3_locator_traversal :
    (∀ q : String, allLetters q =
      (headChar (trimS q)).toUpper ::
        uppercaseAZ.filter (fun L => L ≠ (headChar (trimS q)).toUpper)) ∧
    (∀ (fetch : FetchOracle) (q : String) (fuel : Nat),
      get_medicine_locate fetch q fuel =
        firstSome (fun L => pageLoop fetch (lowerS (trimS q)) L fuel 1)
          (allLetters q)) ∧
    (∀ (fetch : FetchOracle) (lower : String) (L : Char) (fuel p : Nat),
      fetch L p = none → pageLoop fetch lower L (fuel + 1) p = none) ∧
    (∀ (fetch : FetchOracle) (lower : String) (L : Char) (fuel p : Nat),
      fetch L p = some [] → pageLoop fetch lower L (fuel + 1) p = none) ∧
    (∀ (fetch : FetchOracle) (lower : String) (L : Char) (fuel p : Nat)
        (rows : List IdxRow),
      fetch L p = some rows → rows ≠ [] →
      rows.find? (rowMatches lower) = none →
      pageLoop fetch lower L (fuel + 1) p = pageLoop fetch lower L fuel (p + 1)) ∧
    (∀ (fetch : FetchOracle) (lower : String) (L : Char) (fuel p : Nat)
        (rows : List IdxRow) (r : IdxRow),
      fetch L p = some rows →
      rows.find? (rowMatches lower) = some r →
      pageLoop fetch lower L (fuel + 1) p = some (urljoin baseUrl r.href)) ∧
    (∀ (fetch : FetchOracle) (q : String) (fuel : Nat) (L : Char) (rest : List Char),
      allLetters q = L :: rest →
      pageLoop fetch (lowerS (trimS q)) L fuel 1 = none →
      get_medicine_locate fetch q fuel =
        firstSome (fun L2 => pageLoop fetch (lowerS (trimS q)) L2 fuel 1) rest) ∧
    (∀ (fetch : FetchOracle) (q : String) (fuel : Nat),
      (∀ L ∈ allLetters q, pageLoop fetch (lowerS (trimS q)) L fuel 1 = none) →
      get_medicine_locate fetch q fuel = none) := by
  refine ⟨fun q => rfl, fun fetch q fuel => rfl, ?_, ?_, ?_, ?_, ?_, ?_⟩
  · intro fetch lower L fuel p h
    simp [pageLoop, h]
  · intro fetch lower L fuel p h
    simp [pageLoop, h]
  · intro fetch lower L fuel p rows hf hne hfind
    cases rows with
    | nil => exact absurd rfl hne
    | cons a t => simp [pageLoop, hf, hfind]
  · intro fetch lower L fuel p rows r hf hfind
    cases rows with
    | nil => simp at hfind
    | cons a t => simp [pageLoop, hf, hfind]
  · intro fetch q fuel L rest hAll hNone
    unfold get_medicine_locate
    rw [hAll]
    simp [firstSome, hNone]
  · intro fetch q fuel h
    exact firstSome_eq_none _ _ h

/-- Witness for C3 at the concrete oracle: the failing expected bucket
aborts with none, the fallback bucket matches by ingredient on page two,
and the whole walk resolves the link found there. -/
theorem C3_locator_traversal_witness :
    pageLoop exFetch "panadol" 'P' 3 1 = none ∧
    pageLoop exFetch "panadol" 'A' 1 2 =
      some (urljoin baseUrl "/document/someol-cmi") ∧
    get_medicine_locate exFetch "Panadol" 3 =
      some "https://medsinfo.com.au/document/someol-cmi" :=
  ⟨C3_locator_traversal.2.2.1 exFetch "panadol" 'P' 2 1 (by decide),
   C3_locator_traversal.2.2.2.2.2.1 exFetch "panadol" 'A' 0 2
     [⟨"Someol", "panadol compound", "/document/someol-cmi"⟩]
     ⟨"Someol", "panadol compound", "/document/someol-cmi"⟩
     (by decide) (by decide),
   by decide⟩

/-! ## Claim C5 -/

/--
Counterexample to claim C5.  The claim counts occurrences of the phrase
heading itself; the source counts sections with a "-body" id whose FIRST
h3 matches, and harvests the second such section.  On a document whose
second heading occurrence is not the first h3 of its section, the source
returns the content of the section of the THIRD occurrence instead of the
content of the section of the second occurrence predicted by the claim.
-/
theorem C5_counterexample :
    ((descendants exC5).filter warnMatchH3).length = 3 ∧
    extract_warnings exC5 = ["C"] ∧
    specWarnings exC5 = ["B"] ∧
    extract_warnings exC5 ≠ specWarnings exC5 := by decide

/--
Claim C5, amended: the occurrences the source selects between are the
sections with an id ending in "-body" whose first h3 contains the phrase;
when at least two such sections exist, extract_warnings returns exactly
the h4, paragraph and list text of the second one, in document order, and
anything under the first such section is ignored.  A matching heading
that is not the first h3 of such a section is not counted.
-/
theorem C5_second_section_selected (doc : Node) (s1 s2 : Node)
    (rest : List Node)
    (h : ((descendants doc).filter sectionBodyP).filter warnSection =
      s1 :: s2 :: rest) :
    extract_warnings doc = harvestWarn s2 := by
  unfold extract_warnings
  rw [h]

/-- Witness for the amended C5 theorem on the concrete document. -/
theorem C5_second_section_selected_witness :
    extract_warnings exC5 = harvestWarn exC5s3 ∧ harvestWarn exC5s3 = ["C"] :=
  ⟨C5_second_section_selected exC5 exC5s1 exC5s3 [] (by rfl), by decide⟩

/-! ## Claim C7 -/

/--
Claim C7, confirmed: variants are tried in priority order, so whenever
some heading matches the first variant the extraction of the full variant
list equals the extraction of the first variant alone — a heading that
matches only a later variant cannot win, no matter how early it appears
in the document.
-/
theorem C7_variant_priority (doc : Node) (v : String) (vs : List String)
    (h : (allWithSibs isHeadingTag doc).any
      (fun ns => containsCI (getTextS ns.1) v) = true) :
    extract_section doc (v :: vs) = extract_section doc [v] := by
  obtain ⟨x, hx⟩ := anyFindSome _ _ h
  unfold extract_section findAnchor findHeadingAnchor
  simp [firstSome, hx]

/-- Witness for C7 on a document where the heading matching the second
variant comes first: the first variant still wins. -/
theorem C7_variant_priority_witness :
    extract_section exC7 ["How do I use", "How do I take"] =
      extract_section exC7 ["How do I use"] ∧
    extract_section exC7 ["How do I use", "How do I take"] =
      some "Use content" :=
  ⟨C7_variant_priority exC7 "How do I use" ["How do I take"] (by decide),
   by decide⟩

/-! ## Claim C4 -/

/--
Counterexample to claim C4.  The claim states that with zero or one table
the extraction falls back to the first two emphasized runs AFTER the
heading and returns comma-split lists.  The source calls
header.find_all("strong"), which searches inside the heading element
itself: on a document whose only emphasized run sits after the heading
(inside a following paragraph), the source finds no run and returns None
for both fields, while the claim predicts the comma-split list of the
text following that run; and even when runs are found the source keeps
only the first item, not the list.
-/
theorem C4_counterexample :
    extract_side_effects_from_soup exC4 = (Val.vNone, Val.vNone) ∧
    specSideFxFallback exC4 = (["nausea", "headache"], []) ∧
    Val.vNone ≠ Val.vList ["nausea", "headache"] := by decide

/--
Claim C4, amended: absence of the heading yields two empty lists; when two
tables are collected after the heading the result is the bottom-left cell
(last row, first cell) of each; with fewer than two tables the fallback
takes the first two emphasized runs INSIDE the heading element itself and
keeps only the first item of each comma-split list of the run's following
text (null when there is none): first run to common, second to serious.
-/
theorem C4_side_effect_extraction :
    (∀ doc : Node, splitAtFirst sideFxHeadP (descendants doc) = none →
      extract_side_effects_from_soup doc = (Val.vList [], Val.vList [])) ∧
    (∀ (doc hdr : Node) (after : List Node) (t0 t1 : Node) (rest : List Node),
      splitAtFirst sideFxHeadP (descendants doc) = some (hdr, after) →
      collectTables (after.filter Node.isElem) [] = t0 :: t1 :: rest →
      extract_side_effects_from_soup doc =
        (optVal (extract_bottom_left_cell t0),
         optVal (extract_bottom_left_cell t1))) ∧
    (∀ (doc hdr : Node) (after : List Node),
      splitAtFirst sideFxHeadP (descendants doc) = some (hdr, after) →
      (collectTables (after.filter Node.isElem) []).length < 2 →
      extract_side_effects_from_soup doc =
        (optVal (extract_effects_by_strong_order hdr).1.head?,
         optVal (extract_effects_by_strong_order hdr).2.head?)) := by
  refine ⟨?_, ?_, ?_⟩
  · intro doc h
    unfold extract_side_effects_from_soup
    rw [h]
  · intro doc hdr after t0 t1 rest h1 h2
    unfold extract_side_effects_from_soup
    rw [h1]
    dsimp only
    rw [h2]
  · intro doc hdr after h1 hlen
    unfold extract_side_effects_from_soup
    rw [h1]
    dsimp only
    rcases he : extract_effects_by_strong_order hdr with ⟨cl, sl⟩
    cases hc : collectTables (after.filter Node.isElem) [] with
    | nil => rfl
    | cons t0 ts =>
      cases ts with
      | nil => rfl
      | cons t1 rest =>
        rw [hc] at hlen
        simp at hlen
        omega

/-- Witness for the amended C4 theorem: the missing-heading branch and the
in-heading fallback branch discharged on concrete documents, plus the
two-table behaviour evaluated on a concrete two-table document. -/
theorem C4_side_effect_extraction_witness :
    extract_side_effects_from_soup (el "body" []) = (Val.vList [], Val.vList []) ∧
    extract_side_effects_from_soup exC4 = (Val.vNone, Val.vNone) ∧
    extract_side_effects_from_soup exC4T =
      (Val.vStr "common-cell", Val.vStr "serious-cell") :=
  ⟨C4_side_effect_extraction.1 (el "body" []) (by rfl),
   (C4_side_effect_extraction.2.2 exC4 exC4h
      [tx "Are there any side effects?", exC4p, exC4strong,
       tx "Common side effects", tx "nausea, headache."]
      (by rfl) (by decide)),
   by decide⟩

/-! ## Claim C6 -/

/--
Counterexample to claim C6.  The claim states that the harvest stops at
the next bold-led paragraph — by the spec glossary, a paragraph whose
leading run is emphasized.  The source stops at any paragraph containing
a strong tag anywhere: on a document where the emphasized run is in the
middle of the second paragraph, the source cuts the harvest there while
the claim rendering continues to the end of the section.
-/
theorem C6_counterexample :
    extract_section exC6 ["How do I store"] = some "Keep cool" ∧
    specExtractSection exC6 ["How do I store"] =
      some "Keep cool\nAsk your pharmacist about disposal\nKeep dry" ∧
    extract_section exC6 ["How do I store"] ≠
      specExtractSection exC6 ["How do I store"] := by decide

/--
Claim C6, amended: once an anchor is found, the harvest walks the tag
siblings after it and stops at the first of: any h2 or h3 heading
(regardless of the anchor level) or any paragraph containing a strong tag
anywhere below it (not only bold-led paragraphs); harvested fragments are
joined with newlines and the result is absent when no anchor is found or
nothing non-empty was harvested.
-/
theorem C6_section_harvest :
    (∀ (doc : Node) (variants : List String),
      findAnchor doc variants = none → extract_section doc variants = none) ∧
    (∀ (doc : Node) (variants : List String) (anchor : Node) (sibs : List Node),
      findAnchor doc variants = some (anchor, sibs) →
      extract_section doc variants =
        (match harvestSibs sibs with
         | [] => none
         | parts => some (joinSep "\n" parts))) ∧
    (∀ n : Node, isBoundary n =
      (n.tag = "h2" || n.tag = "h3" ||
        (n.tag = "p" && (descendants n).any (fun d => d.tag = "strong")))) ∧
    (∀ (pre : List Node) (b : Node) (post : List Node),
      (∀ x ∈ pre, Node.isElem x = true ∧ isBoundary x = false) →
      Node.isElem b = true → isBoundary b = true →
      harvestSibs (pre ++ b :: post) =
        (pre.map getTextSp).filter (fun s => s ≠ "")) := by
  refine ⟨?_, ?_, ?_, ?_⟩
  · intro doc variants h
    unfold extract_section
    rw [h]
  · intro doc variants anchor sibs h
    unfold extract_section
    rw [h]
  · intro n
    simp [isBoundary, isHeadingTag, hasStrongDesc, Bool.or_assoc]
  · intro pre b post hpre hbe hbb
    unfold harvestSibs
    rw [List.filter_append,
      List.filter_eq_self.mpr (fun x hx => (hpre x hx).1),
      List.filter_cons_of_pos hbe,
      List.takeWhile_append_of_pos (fun x hx => by simp [(hpre x hx).2]),
      List.takeWhile_cons_of_neg (by simp [hbb]),
      List.append_nil]

/-- Witness for the amended C6 theorem: the anchored harvest equation
discharged on the concrete document, and the boundary stop discharged at
the paragraph whose strong run is not leading. -/
theorem C6_section_harvest_witness :
    extract_section exC6 ["How do I store"] = some "Keep cool" ∧
    harvestSibs [exC6p1, exC6p2, exC6p3] = ["Keep cool"] := by
  constructor
  · rw [C6_section_harvest.2.1 exC6 ["How do I store"] exC6h
      [exC6p1, exC6p2, exC6p3] (by rfl)]
    decide
  · exact (C6_section_harvest.2.2.2 [exC6p1] exC6p2 [exC6p3]
      (by decide) (by decide) (by decide)).trans (by decide)

/-! ## Claim C8 -/

/--
Counterexample to claim C8.  The claim states that a failed download
leaves BOTH attachment fields null.  The source assigns the resolved
address to pdf_url before attempting the download and never clears it:
after a failed download the record carries the address in pdf_url and
None only in pdf_filename.
-/
theorem C8_counterexample :
    (get_medicine_assemble exC8 "https://medsinfo.com.au/document/panadol-cmi"
        "panadol" failDl).pdf_url =
      Val.vStr "https://medsinfo.com.au/Files/panadol.pdf?format=pdf" ∧
    (get_medicine_assemble exC8 "https://medsinfo.com.au/document/panadol-cmi"
        "panadol" failDl).pdf_filename = Val.vNone ∧
    Val.vStr "https://medsinfo.com.au/Files/panadol.pdf?format=pdf" ≠
      Val.vNone := by decide

/--
Claim C8, amended: when a PDF attachment link is present and the download
fails, the failure is non-fatal: the record is still produced, its
pdf_filename is null, its pdf_url keeps the resolved attachment address,
and every non-attachment field is unaffected by the download outcome.
-/
theorem C8_pdf_failure_nonfatal (doc : Node) (detail drug h : String)
    (download : String → String → Option String)
    (hhref : pdfHref doc = some h)
    (hfail : download h (titleOf doc drug) = none) :
    (get_medicine_assemble doc detail drug download).pdf_filename = Val.vNone ∧
    (get_medicine_assemble doc detail drug download).pdf_url = Val.vStr h ∧
    (∀ d2 : String → String → Option String,
      coreOf (get_medicine_assemble doc detail drug d2) =
        coreOf (get_medicine_assemble doc detail drug download)) := by
  refine ⟨?_, ?_, fun d2 => rfl⟩
  · simp [get_medicine_assemble, hhref, hfail, optVal]
  · simp [get_medicine_assemble, hhref, optVal]

/-- Witness for the amended C8 theorem at the concrete document with a
failing download oracle. -/
theorem C8_pdf_failure_nonfatal_witness :
    (get_medicine_assemble exC8 "https://medsinfo.com.au/document/panadol-cmi"
        "panadol" failDl).pdf_filename = Val.vNone ∧
    (get_medicine_assemble exC8 "https://medsinfo.com.au/document/panadol-cmi"
        "panadol" failDl).pdf_url =
      Val.vStr "https://medsinfo.com.au/Files/panadol.pdf?format=pdf" :=
  ⟨(C8_pdf_failure_nonfatal exC8 "https://medsinfo.com.au/document/panadol-cmi"
      "panadol" "https://medsinfo.com.au/Files/panadol.pdf?format=pdf" failDl
      (by decide) (by rfl)).1,
   (C8_pdf_failure_nonfatal exC8 "https://medsinfo.com.au/document/panadol-cmi"
      "panadol" "https://medsinfo.com.au/Files/panadol.pdf?format=pdf" failDl
      (by decide) (by rfl)).2.1⟩

end Medicine
